import Mathlib

/-!
Shallow embedding of the list-synchronization hook of the Cinetracker
repository (the useWatchlist hook). The hook keeps an in-memory object
with three lists (watchlist, watched, favorites), loads it from a remote
document store when the session is authenticated or from a local
key-value store otherwise, and persists every mutation optimistically.

Modelling conventions:
  - A JS object that may miss some of the three list fields (the result
    of JSON.parse on an arbitrary stored blob, or a remote document with
    missing fields) is a RawState, whose fields are Options.
  - The ambient clock read by addToWatched (new Date().toISOString())
    is an explicit argument called today.
  - Failures of the remote store and of the local store are explicit
    Boolean oracles (remoteOk, localOk, fetchOk, createOk); a JS
    exception that escapes an async function (a rejected promise) is the
    Boolean field thrown of the result.
  - Toast notifications are recorded by title in emission order.
-/

/-- ContentId is a movie id, a JS string or number, compared with strict
equality as in the source filters. -/
inductive ContentId
| num (n : Int)
| str (s : String)
deriving DecidableEq, Repr

/-- Entry of the watched list: id, rating and the calendar date stamped
by addToWatched. -/
structure WatchedEntry where
  id : ContentId
  rating : Int
  dateWatched : String
deriving DecidableEq, Repr

/-- The complete in-memory aggregate of the three lists. -/
structure ListState where
  watchlist : List ContentId
  watched : List WatchedEntry
  favorites : List ContentId
deriving DecidableEq, Repr

/-- A parsed JS object whose three list fields may each be absent, as
produced by JSON.parse on an arbitrary blob or by a remote document with
missing fields. setData applies such an object verbatim. -/
structure RawState where
  watchlist : Option (List ContentId)
  watched : Option (List WatchedEntry)
  favorites : Option (List ContentId)
deriving DecidableEq, Repr

/-- View of a complete state as a parsed object with every field
present; this is also the shape JSON.stringify writes, since saveData
always serializes a full object. -/
def toRaw (s : ListState) : RawState :=
  ⟨some s.watchlist, some s.watched, some s.favorites⟩

/-- Recover a complete ListState from a parsed object; none when a field
is absent (a partially hydrated object). -/
def fromRaw : RawState → Option ListState
  | ⟨some w, some d, some f⟩ => some ⟨w, d, f⟩
  | _ => none

/-- The empty default shape used by useState and by document creation. -/
def emptyState : ListState := ⟨[], [], []⟩

/-- Initial in-memory value of the hook: the empty default, complete. -/
def initialData : RawState := toRaw emptyState

/-- Content of the local key-value store under the single well-known
key: either a blob that parses to a RawState or one on which JSON.parse
throws. -/
inductive StoredBlob
| valid (b : RawState)
| corrupt
deriving DecidableEq, Repr

/-- The local store holds at most one blob under the key. -/
abbrev LocalStore : Type := Option StoredBlob

/-- Title of the degraded-mode toast raised when the remote load fails. -/
def offlineToast : String := "Using offline data"

/-- Title of the toast raised when a remote write fails and the data is
saved to the local store instead. -/
def savedLocallyToast : String := "Saved locally"

/-- loadLocalData from the source: read the blob, JSON.parse it and
setData the parsed object verbatim; on absence or parse error keep the
current state. No field defaulting happens on this path. -/
def loadLocalData : LocalStore → RawState → RawState
  | none, cur => cur
  | some .corrupt, cur => cur
  | some (.valid b), _ => b

/-- Firestore semantics of setDoc with merge true: every field named by
the payload overwrites the corresponding field of an existing document;
fields absent from the payload are kept. On an absent document the
payload becomes the document. -/
def setDocMerge (existing : Option RawState) (payload : RawState) : RawState :=
  match existing with
  | none => payload
  | some e =>
      ⟨match payload.watchlist with | some v => some v | none => e.watchlist,
       match payload.watched with | some v => some v | none => e.watched,
       match payload.favorites with | some v => some v | none => e.favorites⟩

/-- Result of loadUserData: the in-memory state after the call, the
remote document after the call, and the toasts emitted. -/
structure LoadResult where
  data : RawState
  remote : Option RawState
  toasts : List String
deriving DecidableEq, Repr

/-- loadUserData from the source. Arguments: the captured user,
whether getDoc resolves (fetchOk) and whether setDoc resolves
(createOk), the remote document seen by getDoc (docAtFetch), the remote
document present at the moment setDoc executes (docAtCreate, which can
differ from docAtFetch under a concurrent writer), the local store and
the current in-memory state. When the document exists its three fields
are defaulted with getD as the source does with a logical-or; when it is
absent a merge write of the empty default shape creates it; when getDoc
or setDoc throws, the catch falls back to loadLocalData and raises one
degraded-mode toast. -/
def loadUserData (user : Option String) (fetchOk createOk : Bool)
    (docAtFetch docAtCreate : Option RawState)
    (store : LocalStore) (cur : RawState) : LoadResult :=
  match user with
  | none => ⟨cur, docAtCreate, []⟩
  | some _ =>
    if fetchOk then
      match docAtFetch with
      | some d =>
          ⟨⟨some (d.watchlist.getD []), some (d.watched.getD []),
            some (d.favorites.getD [])⟩, docAtCreate, []⟩
      | none =>
        if createOk then
          ⟨toRaw emptyState, some (setDocMerge docAtCreate (toRaw emptyState)), []⟩
        else
          ⟨loadLocalData store cur, docAtCreate, [offlineToast]⟩
    else
      ⟨loadLocalData store cur, docAtCreate, [offlineToast]⟩

/-- Result of saveData: the in-memory state (set before any await), a
flag recording whether updateDoc succeeded, the local store after the
call, the toasts emitted, and whether an exception escaped the async
function as a rejected promise. -/
structure SaveResult where
  data : RawState
  remoteWritten : Bool
  store : LocalStore
  toasts : List String
  thrown : Bool
deriving DecidableEq, Repr

/-- saveData from the source: setData first (optimistic), then for an
authenticated user try updateDoc, on failure write the serialized full
state to the local store inside the catch and toast saved-locally; for a
guest write the serialized full state to the local store directly. The
two setItem calls sit outside any try, so when the local write throws
(localOk false) the exception escapes and nothing after it runs. -/
def saveData (user : Option String) (remoteOk localOk : Bool)
    (newData : ListState) (store : LocalStore) : SaveResult :=
  match user with
  | some _ =>
    if remoteOk then
      ⟨toRaw newData, true, store, [], false⟩
    else if localOk then
      ⟨toRaw newData, false, some (.valid (toRaw newData)), [savedLocallyToast], false⟩
    else
      ⟨toRaw newData, false, store, [], true⟩
  | none =>
    if localOk then
      ⟨toRaw newData, false, some (.valid (toRaw newData)), [], false⟩
    else
      ⟨toRaw newData, false, store, [], true⟩

/-- addToWatchlist, pure part: filter the id out, then append it. -/
def addToWatchlistData (x : ContentId) (s : ListState) : ListState :=
  { s with watchlist := s.watchlist.filter (fun item => item != x) ++ [x] }

/-- removeFromWatchlist, pure part. -/
def removeFromWatchlistData (x : ContentId) (s : ListState) : ListState :=
  { s with watchlist := s.watchlist.filter (fun item => item != x) }

/-- addToWatched, pure part: drop any entry with the id, then append a
fresh entry stamped with today. -/
def addToWatchedData (x : ContentId) (rating : Int) (today : String)
    (s : ListState) : ListState :=
  { s with watched := s.watched.filter (fun item => item.id != x) ++
      [⟨x, rating, today⟩] }

/-- removeFromWatched, pure part. -/
def removeFromWatchedData (x : ContentId) (s : ListState) : ListState :=
  { s with watched := s.watched.filter (fun item => item.id != x) }

/-- updateWatchedRating, pure part: map over the entries, replacing the
rating of those whose id matches; dateWatched is copied unchanged. -/
def updateWatchedRatingData (x : ContentId) (rating : Int)
    (s : ListState) : ListState :=
  { s with watched := s.watched.map (fun item =>
      if item.id == x then { item with rating := rating } else item) }

/-- addToFavorites, pure part. -/
def addToFavoritesData (x : ContentId) (s : ListState) : ListState :=
  { s with favorites := s.favorites.filter (fun item => item != x) ++ [x] }

/-- removeFromFavorites, pure part. -/
def removeFromFavoritesData (x : ContentId) (s : ListState) : ListState :=
  { s with favorites := s.favorites.filter (fun item => item != x) }

/-- The seven mutation operations of the hook. -/
inductive MutOp
| addWL (x : ContentId)
| removeWL (x : ContentId)
| addWatched (x : ContentId) (rating : Int)
| removeWatched (x : ContentId)
| updateRating (x : ContentId) (rating : Int)
| addFav (x : ContentId)
| removeFav (x : ContentId)
deriving DecidableEq, Repr

/-- Pure state transform of each operation, with the ambient date made
explicit. -/
def applyOp (today : String) : MutOp → ListState → ListState
  | .addWL x, s => addToWatchlistData x s
  | .removeWL x, s => removeFromWatchlistData x s
  | .addWatched x r, s => addToWatchedData x r today s
  | .removeWatched x, s => removeFromWatchedData x s
  | .updateRating x r, s => updateWatchedRatingData x r s
  | .addFav x, s => addToFavoritesData x s
  | .removeFav x, s => removeFromFavoritesData x s

/-- Title of the confirmation toast each operation emits after saveData
resolves. -/
def opToast : MutOp → String
  | .addWL _ => "Added to watchlist"
  | .removeWL _ => "Removed from watchlist"
  | .addWatched _ _ => "Marked as watched"
  | .removeWatched _ => "Removed from watched"
  | .updateRating _ _ => "Rating updated"
  | .addFav _ => "Added to favorites"
  | .removeFav _ => "Removed from favorites"

/-- A full mutation call: compute the new state, await saveData, then
emit the confirmation toast. When saveData rejected, the await rethrows,
so the confirmation toast is skipped and the rejection escapes. -/
def runOp (user : Option String) (remoteOk localOk : Bool) (today : String)
    (op : MutOp) (data : ListState) (store : LocalStore) : SaveResult :=
  let r := saveData user remoteOk localOk (applyOp today op data) store
  if r.thrown then r else { r with toasts := r.toasts ++ [opToast op] }

/-- Completion handler of a load: both loadUserData and loadLocalData
end in an unconditional setData of their result; the effect that starts
them (lines 30 to 37 of the hook) registers no cleanup and no generation
token, so a completion always replaces the current state. -/
def applyLoadCompletion (result : RawState) (_cur : RawState) : RawState :=
  result

/-- Fold the completion handlers of several in-flight loads over the
state, in the order the loads complete. -/
def runCompletions (init : RawState) (completions : List RawState) : RawState :=
  completions.foldl (fun cur r => applyLoadCompletion r cur) init

/-- The no-duplicates invariant of the three lists. -/
def listsNodup (s : ListState) : Prop :=
  s.watchlist.Nodup ∧ (s.watched.map WatchedEntry.id).Nodup ∧ s.favorites.Nodup

instance (s : ListState) : Decidable (listsNodup s) := by
  unfold listsNodup
  exact inferInstance

/-- C1. The spec requires a stale load to be abandoned when the session
identity changes; the hook registers no cleanup and no generation token,
so the completion handler of the earlier load replaces the state set by
the newer session. Concretely: the new (guest) session completes first
with the empty default, then the stale authenticated load completes with
the old data, and the final state is the stale data, not the newer. -/
theorem stale_load_completion_overwrites :
    runCompletions initialData
        [toRaw emptyState, toRaw ⟨[ContentId.num 5], [], []⟩]
      = toRaw ⟨[ContentId.num 5], [], []⟩
    ∧ toRaw ⟨[ContentId.num 5], [], []⟩ ≠ toRaw emptyState := by
  exact ⟨rfl, by decide⟩

/-- C9. Round-trip for the Guest session: saveData (user none) writes
the serialized full state under the key, and loadLocalData parses it
back to a ListState equal to the original. Holds for every prior store
content, every current in-memory value and either remote oracle. -/
theorem guest_save_load_roundtrip (s : ListState) (remoteOk : Bool)
    (store : LocalStore) (cur : RawState) :
    fromRaw (loadLocalData (saveData none remoteOk true s store).store cur)
      = some s := by
  cases s
  rfl

/-- C10. Frame property: every mutation rewrites only its own list;
the other two fields of the state are returned unchanged. -/
theorem mutations_touch_only_their_list (s : ListState) (x : ContentId)
    (r : Int) (d : String) :
    (addToWatchlistData x s).watched = s.watched
    ∧ (addToWatchlistData x s).favorites = s.favorites
    ∧ (removeFromWatchlistData x s).watched = s.watched
    ∧ (removeFromWatchlistData x s).favorites = s.favorites
    ∧ (addToWatchedData x r d s).watchlist = s.watchlist
    ∧ (addToWatchedData x r d s).favorites = s.favorites
    ∧ (removeFromWatchedData x s).watchlist = s.watchlist
    ∧ (removeFromWatchedData x s).favorites = s.favorites
    ∧ (updateWatchedRatingData x r s).watchlist = s.watchlist
    ∧ (updateWatchedRatingData x r s).favorites = s.favorites
    ∧ (addToFavoritesData x s).watchlist = s.watchlist
    ∧ (addToFavoritesData x s).watched = s.watched
    ∧ (removeFromFavoritesData x s).watchlist = s.watchlist
    ∧ (removeFromFavoritesData x s).watched = s.watched :=
  ⟨rfl, rfl, rfl, rfl, rfl, rfl, rfl, rfl, rfl, rfl, rfl, rfl, rfl, rfl⟩

/-- C4. Authenticated mutation whose remote write fails (remoteOk false)
while the local write succeeds: the in-memory state stays at the
optimistic new value, updateDoc did not succeed and is not retried, the
local store now holds the serialized full new state, the saved-locally
toast is emitted, and no exception escapes. -/
theorem authenticated_remote_failure_saves_locally (uid : String)
    (today : String) (op : MutOp) (data : ListState) (store : LocalStore) :
    (runOp (some uid) false true today op data store).data
        = toRaw (applyOp today op data)
    ∧ (runOp (some uid) false true today op data store).remoteWritten = false
    ∧ (runOp (some uid) false true today op data store).store
        = some (.valid (toRaw (applyOp today op data)))
    ∧ savedLocallyToast ∈ (runOp (some uid) false true today op data store).toasts
    ∧ (runOp (some uid) false true today op data store).thrown = false := by
  refine ⟨rfl, rfl, rfl, ?_, rfl⟩
  show savedLocallyToast ∈ [savedLocallyToast, opToast op]
  exact List.mem_cons_self _ _

/-- C5. Authenticated load whose fetch throws (fetchOk false): the catch
falls back to the local store, so the resulting state is the last
serialized snapshot when one is stored and the empty default when the
store is empty, and the degraded-mode toast list is exactly one long. -/
theorem authenticated_fetch_failure_falls_back (uid : String)
    (createOk : Bool) (docAtFetch docAtCreate : Option RawState)
    (s : ListState) :
    ((loadUserData (some uid) false createOk docAtFetch docAtCreate
        none initialData).data = initialData
      ∧ (loadUserData (some uid) false createOk docAtFetch docAtCreate
          none initialData).toasts = [offlineToast])
    ∧ ((loadUserData (some uid) false createOk docAtFetch docAtCreate
          (some (.valid (toRaw s))) initialData).data = toRaw s
      ∧ (loadUserData (some uid) false createOk docAtFetch docAtCreate
          (some (.valid (toRaw s))) initialData).toasts = [offlineToast]) :=
  ⟨⟨rfl, rfl⟩, ⟨rfl, rfl⟩⟩

/-- C2 counterexample. A guest mutation whose local write throws (quota
exceeded, localOk false) is not swallowed: the async function rejects,
so the exception crosses the public boundary of the hook. -/
theorem guest_local_write_failure_escapes :
    (runOp none true false "2024-01-01" (.addWL (ContentId.num 1))
        emptyState none).thrown = true := rfl

/-- C2 amended. For every mutation the in-memory state always keeps the
optimistic new value (setData runs before any await); but the local
write failure is swallowed on no path: the call rejects exactly when the
executed local write throws, that is when localOk is false and the flow
reaches a setItem (guest, or authenticated with a failed remote write). -/
theorem mutation_memory_kept_rejection_characterized (user : Option String)
    (remoteOk localOk : Bool) (today : String) (op : MutOp)
    (data : ListState) (store : LocalStore) :
    (runOp user remoteOk localOk today op data store).data
        = toRaw (applyOp today op data)
    ∧ ((runOp user remoteOk localOk today op data store).thrown = true
        ↔ localOk = false ∧ (user = none ∨ remoteOk = false)) := by
  cases user <;> cases remoteOk <;> cases localOk <;>
    simp [runOp, saveData]

/-- C3 counterexample. A stored blob missing the watched and favorites
fields is applied verbatim by loadLocalData, so the state after the load
is partially hydrated: it cannot be read back as a complete ListState. -/
theorem local_load_can_be_partially_hydrated :
    fromRaw (loadLocalData (some (.valid ⟨some [], none, none⟩))
        initialData) = none := rfl

/-- C3 amended. The remote load path always yields a complete state
(missing remote fields are defaulted, an absent document yields the
empty default); the local path applies the parsed blob verbatim, so a
load is complete for every blob this component itself persisted, but a
foreign blob missing a field yields a state missing that field. -/
theorem load_hydration_characterized :
    (∀ (uid : String) (docAtFetch docAtCreate : Option RawState)
        (store : LocalStore) (cur : RawState),
      (fromRaw (loadUserData (some uid) true true docAtFetch docAtCreate
          store cur).data).isSome = true)
    ∧ (∀ (s : ListState) (remoteOk : Bool) (store : LocalStore)
        (cur : RawState),
      fromRaw (loadLocalData (saveData none remoteOk true s store).store
          cur) = some s) := by
  constructor
  · intro uid docAtFetch docAtCreate store cur
    cases docAtFetch <;> rfl
  · intro s remoteOk store cur
    cases s
    rfl

/-- C6 counterexample. The ensure write is setDoc with merge true and a
payload naming all three fields; when the document came to exist
concurrently between getDoc and setDoc (here holding a watchlist with
one id), the merge write overwrites its fields with the empty defaults,
clobbering the concurrent data. -/
theorem concurrent_ensure_clobbers :
    (loadUserData (some "u") true true none
        (some (toRaw ⟨[ContentId.num 1], [], []⟩)) none initialData).remote
      = some (toRaw emptyState)
    ∧ (toRaw ⟨[ContentId.num 1], [], []⟩).watchlist
        ≠ (toRaw emptyState).watchlist := by
  exact ⟨rfl, by decide⟩

/-- C6 amended. When the authenticated load finds no document at fetch
time it issues a merge write of the empty default shape and the
in-memory state becomes the empty default; the merge write keeps only
fields absent from the payload, and since the payload names all three
fields it overwrites all fields of a document that exists at write time,
so two concurrent ensure calls can clobber each other. -/
theorem ensure_creates_default_via_merge (uid : String)
    (docAtCreate : Option RawState) (store : LocalStore) (cur : RawState) :
    (loadUserData (some uid) true true none docAtCreate store cur).data
        = toRaw emptyState
    ∧ (loadUserData (some uid) true true none docAtCreate store cur).remote
        = some (setDocMerge docAtCreate (toRaw emptyState))
    ∧ (∀ e : RawState, setDocMerge (some e) (toRaw emptyState)
        = toRaw emptyState) :=
  ⟨rfl, rfl, fun _ => rfl⟩

/-- Filtering the id out leaves zero occurrences of the id. -/
lemma count_filter_ne (x : ContentId) (l : List ContentId) :
    (l.filter (fun a => a != x)).count x = 0 := by
  apply List.count_eq_zero.mpr
  intro hx
  have h := List.of_mem_filter hx
  simp at h

/-- Filter-then-append keeps the no-duplicates invariant of a list. -/
lemma nodup_filter_ne_append (x : ContentId) {l : List ContentId}
    (h : l.Nodup) : (l.filter (fun a => a != x) ++ [x]).Nodup := by
  rw [List.nodup_append]
  refine ⟨h.filter _, List.nodup_singleton x, ?_⟩
  intro a ha hax
  have hp := List.of_mem_filter ha
  have hax2 : a = x := by simpa using hax
  subst hax2
  simp at hp

/-- Filter-then-append keeps the no-duplicate-ids invariant of the
watched list. -/
lemma nodup_watched_filter_append (x : ContentId) (r : Int) (d : String)
    {l : List WatchedEntry} (h : (l.map WatchedEntry.id).Nodup) :
    ((l.filter (fun (i : WatchedEntry) => i.id != x)
        ++ [(⟨x, r, d⟩ : WatchedEntry)]).map WatchedEntry.id).Nodup := by
  rw [List.map_append, List.nodup_append]
  refine ⟨h.sublist (List.Sublist.map WatchedEntry.id
      (List.filter_sublist l)), by simp, ?_⟩
  intro a ha hax
  obtain ⟨i, hi, rfl⟩ := List.mem_map.mp ha
  have hp := List.of_mem_filter hi
  have hax2 : i.id = x := by simpa using hax
  rw [hax2] at hp
  simp at hp

/-- Rewriting a rating keeps every id in place, so the id sequence of
the watched list is unchanged. -/
lemma map_id_update (x : ContentId) (r : Int) (l : List WatchedEntry) :
    (l.map (fun item => if item.id == x then { item with rating := r }
        else item)).map WatchedEntry.id = l.map WatchedEntry.id := by
  induction l with
  | nil => rfl
  | cons e t ih =>
    simp only [List.map_cons, List.cons.injEq]
    refine ⟨?_, ih⟩
    cases hc : e.id == x <;> simp [hc]

/-- Every operation preserves the no-duplicates invariant of the three
lists. -/
lemma applyOp_nodup (today : String) (op : MutOp) (s : ListState)
    (h : listsNodup s) : listsNodup (applyOp today op s) := by
  obtain ⟨h1, h2, h3⟩ := h
  cases op with
  | addWL x => exact ⟨nodup_filter_ne_append x h1, h2, h3⟩
  | removeWL x => exact ⟨h1.filter _, h2, h3⟩
  | addWatched x r => exact ⟨h1, nodup_watched_filter_append x r today h2, h3⟩
  | removeWatched x =>
      exact ⟨h1, h2.sublist (List.Sublist.map WatchedEntry.id
        (List.filter_sublist _)), h3⟩
  | updateRating x r =>
      refine ⟨h1, ?_, h3⟩
      show ((s.watched.map _).map WatchedEntry.id).Nodup
      rw [map_id_update]
      exact h2
  | addFav x => exact ⟨h1, h2, nodup_filter_ne_append x h3⟩
  | removeFav x => exact ⟨h1, h2, h3.filter _⟩

/-- C7. Re-adding deduplicates: after two consecutive addToWatchlist of
the same id the watchlist counts the id exactly once, and every
operation (the adds in particular) preserves the at-most-once invariant
of all three lists. -/
theorem add_deduplicates :
    (∀ (s : ListState) (x : ContentId),
      (addToWatchlistData x (addToWatchlistData x s)).watchlist.count x = 1)
    ∧ (∀ (today : String) (op : MutOp) (s : ListState),
        listsNodup s → listsNodup (applyOp today op s)) := by
  refine ⟨?_, applyOp_nodup⟩
  intro s x
  show ((s.watchlist.filter (fun a => a != x) ++ [x]).filter
      (fun a => a != x) ++ [x]).count x = 1
  rw [List.count_append, count_filter_ne]
  simp

/-- C7 witness at a concrete state and id. -/
theorem add_deduplicates_check :
    (addToWatchlistData (ContentId.num 1) (addToWatchlistData
        (ContentId.num 1) ⟨[ContentId.num 2], [], []⟩)).watchlist.count
        (ContentId.num 1) = 1
    ∧ listsNodup (applyOp "2024-01-01" (.addWL (ContentId.num 1))
        ⟨[ContentId.num 2], [], []⟩) :=
  ⟨add_deduplicates.1 _ _, add_deduplicates.2 "2024-01-01" _ _ (by decide)⟩

/-- When the ids of the watched list are duplicate-free and an entry
with the sought id is a member, filtering by that id yields exactly that
entry. -/
lemma watched_filter_eq_singleton {l : List WatchedEntry} {x : ContentId}
    {e : WatchedEntry} (hnd : (l.map WatchedEntry.id).Nodup) (he : e ∈ l)
    (hx : e.id = x) :
    l.filter (fun (i : WatchedEntry) => i.id == x) = [e] := by
  induction l with
  | nil => cases he
  | cons a t ih =>
    rw [List.map_cons, List.nodup_cons] at hnd
    obtain ⟨ha, ht⟩ := hnd
    rcases List.mem_cons.mp he with rfl | het
    · have hax : (e.id == x) = true := by simp [hx]
      rw [List.filter_cons, hax, if_pos rfl]
      have hnt : t.filter (fun (i : WatchedEntry) => i.id == x) = [] := by
        rw [List.filter_eq_nil_iff]
        intro i hi hpi
        apply ha
        have : i.id = x := by simpa using hpi
        rw [← hx] at this
        rw [← this]
        exact List.mem_map_of_mem _ hi
      rw [hnt]
    · have hax : (a.id == x) = false := by
        apply beq_eq_false_iff_ne.mpr
        intro hcontra
        apply ha
        rw [hcontra, ← hx]
        exact List.mem_map_of_mem _ het
      rw [List.filter_cons, hax, if_neg Bool.false_ne_true]
      exact ih ht het

/-- Filtering by an id commutes with the rating rewrite, because the
rewrite keeps every id in place. -/
lemma filter_map_rating (x : ContentId) (r : Int) (l : List WatchedEntry) :
    (l.map (fun item => if item.id == x then { item with rating := r }
        else item)).filter (fun (i : WatchedEntry) => i.id == x)
      = (l.filter (fun (i : WatchedEntry) => i.id == x)).map
        (fun item => if item.id == x then { item with rating := r }
          else item) := by
  rw [List.filter_map]
  congr 1
  apply List.filter_congr
  intro i _
  simp only [Function.comp_apply]
  by_cases hc : i.id = x
  · simp [hc]
  · simp [hc]

/-- C8. For an id present in a duplicate-free watched list,
updateWatchedRating leaves exactly one entry with that id, carrying the
new rating and the dateWatched the entry had before the call. -/
theorem updateWatchedRating_keeps_date (s : ListState) (x : ContentId)
    (r : Int) (e : WatchedEntry)
    (hnd : (s.watched.map WatchedEntry.id).Nodup) (he : e ∈ s.watched)
    (hx : e.id = x) :
    (updateWatchedRatingData x r s).watched.filter
        (fun (i : WatchedEntry) => i.id == x)
      = [⟨x, r, e.dateWatched⟩] := by
  show (s.watched.map (fun item => if item.id == x
      then { item with rating := r } else item)).filter
      (fun (i : WatchedEntry) => i.id == x) = [⟨x, r, e.dateWatched⟩]
  rw [filter_map_rating, watched_filter_eq_singleton hnd he hx]
  subst hx
  simp

/-- C8 witness at a concrete state, id and rating. -/
theorem updateWatchedRating_keeps_date_check :
    (updateWatchedRatingData (ContentId.num 7) 9
        ⟨[], [⟨ContentId.num 7, 3, "2024-01-01"⟩], []⟩).watched.filter
        (fun (i : WatchedEntry) => i.id == ContentId.num 7)
      = [⟨ContentId.num 7, 9, "2024-01-01"⟩] :=
  updateWatchedRating_keeps_date ⟨[], [⟨ContentId.num 7, 3, "2024-01-01"⟩], []⟩
    (ContentId.num 7) 9 ⟨ContentId.num 7, 3, "2024-01-01"⟩
    (by decide) (by decide) rfl
